import Mathlib

/-!
# Verification of the Cloudability report pipeline

Shallow embedding of `cloudability_reports.py`: the normalizer
(`CloudabilityReporter.process_data`), the chunked spreadsheet exporter
(`CloudabilityReporter.export_to_excel`), the report fetcher
(`CloudabilityReporter.get_report`) and the aggregation loop of `main`.

Cell values are modelled by an inductive `Val` (strings, integers and the
absent/NaN marker); a pandas `DataFrame` is modelled as an ordered column-name
list together with a list of rows, each row a list of values aligned with the
column list.  The numeric down-cast step of `process_data`
(`pd.to_numeric(..., downcast=...)`) narrows only the storage dtype, which this
value-level model does not track; integer down-casting keeps every value
exactly (pandas keeps the narrow dtype only when the cast round-trips
element-wise), so on values the step is the identity and is not given a
separate definition here.
-/

/-- A cell value: a string, an integer, or the absent/NaN marker produced when
a record lacks a column. -/
inductive Val
  | str (s : String)
  | int (n : Int)
  | null
deriving DecidableEq, Repr, Inhabited

/-- One raw record of a Cloudability response: an ordered mapping from field
name to value (Python dicts preserve insertion order and have no duplicate
keys). -/
abbrev RawRecord := List (String × Val)

/-- A JSON response body, reduced to the parts the pipeline inspects: an
ordered mapping from top-level field name to a sequence of records.  Only the
`data` field is ever read; Python truthiness of the response dict is its
non-emptiness. -/
structure Response where
  fields : List (String × List RawRecord)
deriving DecidableEq, Repr, Inhabited

/-- `pandas.DataFrame`, at the value level: an ordered list of column names
and the rows, each row aligned positionally with the columns. -/
structure DataFrame where
  cols : List String
  rows : List (List Val)
deriving DecidableEq, Repr, Inhabited

/-- Column order assigned by `pd.DataFrame(list_of_dicts)`: field names in
order of first appearance across the records. -/
def firstSeenCols (records : List RawRecord) : List String :=
  records.foldl (fun acc r => acc ++ ((r.map Prod.fst).filter (fun k => ¬ acc.contains k))) []

/-- The value a record holds for a field, NaN (`Val.null`) when absent —
`pd.DataFrame(list_of_dicts)` fills missing fields with NaN. -/
def fieldVal (r : RawRecord) (k : String) : Val :=
  (r.lookup k).getD Val.null

/-- `pd.DataFrame(records)`: columns in first-seen order, one row per record,
missing fields filled with NaN. -/
def dataFrameOfRecords (records : List RawRecord) : DataFrame :=
  let cs := firstSeenCols records
  { cols := cs, rows := records.map (fun r => cs.map (fieldVal r)) }

/-- `str.lower()` lower-cases a string character by character. -/
def lowerStr (s : String) : String :=
  ⟨s.data.map Char.toLower⟩

/-- `.str.replace(' ', '_')`: the pattern is the single character `' '`, so
replacing it is a character-wise substitution. -/
def replaceSpace (s : String) : String :=
  ⟨s.data.map (fun c => if c = ' ' then '_' else c)⟩

/-- `df.columns.str.lower().str.replace(' ', '_')` applied to one name. -/
def cleanCol (s : String) : String :=
  replaceSpace (lowerStr s)

/-- `CloudabilityReporter.process_data`: build a DataFrame from `data['data']`
(`KeyError` when the field is missing is caught and returned as `None`);
when the frame is non-empty, down-cast numeric dtypes (identity on values)
and clean the column names.  `df.empty` is true when the frame has no rows or
no columns. -/
def process_data (data : Response) (viewName : String) : Option DataFrame :=
  match data.fields.lookup "data" with
  | none => none
  | some records =>
      let df := dataFrameOfRecords records
      if df.rows.isEmpty || df.cols.isEmpty then some df
      else some { df with cols := df.cols.map cleanCol }

/-- The response used by the repository's own test
`test_process_data_success`: two records, fields `service` and `cost`. -/
def sampleResponse : Response :=
  ⟨[("data",
     [[("service", Val.str "EC2"), ("cost", Val.int 100)],
      [("service", Val.str "S3"), ("cost", Val.int 200)]])]⟩

/-- **C1.** `process_data` on the test-suite input returns a frame whose
columns are exactly `[service, cost]`: no `category` column is ever added,
although the spec and the repository's own tests
(`test_process_data_success` asserts `result.columns[0] == 'category'` and
`result['category'].iloc[0] == 'core'`) require `category` first.  The code
contradicts its own test suite. -/
theorem C1_no_category_column :
    process_data sampleResponse "aws_view1"
      = some ⟨["service", "cost"],
              [[Val.str "EC2", Val.int 100], [Val.str "S3", Val.int 200]]⟩
    ∧ (process_data sampleResponse "aws_view1").map
        (fun df => decide ("category" ∉ df.cols)
          && decide (df.cols.head? ≠ some "category"))
      = some true := by
  decide

/-- **C3.** A response whose `data` field is an empty sequence normalizes to
the zero-row, zero-column frame (a valid result, not a failure); a response
with no `data` field at all makes `process_data` fail with `None`. -/
theorem C3_empty_vs_missing (resp : Response) (viewName : String) :
    (resp.fields.lookup "data" = none → process_data resp viewName = none)
    ∧ (resp.fields.lookup "data" = some [] →
        process_data resp viewName = some ⟨[], []⟩) := by
  constructor
  · intro h
    simp [process_data, h]
  · intro h
    simp [process_data, h, dataFrameOfRecords, firstSeenCols]

/-- Witness for C3 at concrete responses: one response lacking `data`, one
with an empty `data` sequence. -/
theorem C3_empty_vs_missing_witness :
    process_data ⟨[("meta", [])]⟩ "v" = none
    ∧ process_data ⟨[("data", [])]⟩ "v" = some ⟨[], []⟩ :=
  ⟨(C3_empty_vs_missing ⟨[("meta", [])]⟩ "v").1 (by decide),
   (C3_empty_vs_missing ⟨[("data", [])]⟩ "v").2 (by decide)⟩

/-- **C4.** Every column name returned by `process_data` is the corresponding
input field name lower-cased with each space replaced by an underscore
(positionally: the frame's column list is the first-seen field-name list
mapped through lower-casing then space replacement). -/
theorem C4_column_names_cleaned (records : List RawRecord) (resp : Response)
    (viewName : String)
    (hdata : resp.fields.lookup "data" = some records) (hne : records ≠ []) :
    ∃ df, process_data resp viewName = some df
      ∧ df.cols = (firstSeenCols records).map (fun s => replaceSpace (lowerStr s)) := by
  have hrows : ((dataFrameOfRecords records).rows.isEmpty) = false := by
    cases records with
    | nil => exact absurd rfl hne
    | cons r rs => simp [dataFrameOfRecords]
  simp only [process_data, hdata, hrows, Bool.false_or]
  by_cases hc : (dataFrameOfRecords records).cols.isEmpty
  · rw [if_pos hc]
    refine ⟨dataFrameOfRecords records, rfl, ?_⟩
    have h0 : (dataFrameOfRecords records).cols = [] := List.isEmpty_iff.mp hc
    have h1 : firstSeenCols records = [] := h0
    rw [h1, h0]
    rfl
  · rw [if_neg hc]
    exact ⟨_, rfl, rfl⟩

/-- Witness for C4 at a record with mixed casing and spaces. -/
theorem C4_column_names_cleaned_witness :
    ∃ df,
      process_data ⟨[("data", [[("Service Name", Val.str "EC2"), ("COST", Val.int 1)]])]⟩ "v"
        = some df
      ∧ df.cols = (firstSeenCols [[("Service Name", Val.str "EC2"), ("COST", Val.int 1)]]).map
          (fun s => replaceSpace (lowerStr s)) :=
  C4_column_names_cleaned [[("Service Name", Val.str "EC2"), ("COST", Val.int 1)]]
    ⟨[("data", [[("Service Name", Val.str "EC2"), ("COST", Val.int 1)]])]⟩ "v"
    (by decide) (by decide)

/-! ## The chunked worksheet writer of `export_to_excel`

The loop

    for start_idx in range(0, total_rows, CHUNK_SIZE):
        end_idx = min(start_idx + CHUNK_SIZE, total_rows)
        chunk = df.iloc[start_idx:end_idx]
        ...

is embedded as a list of write actions against the worksheet: the first chunk
(`start_idx == 0`) writes the header at row 0 and its data rows from row 1
(`to_excel(..., startrow=0)` with the default header); every later chunk
writes its data rows only, from row `start_idx + 1`
(`to_excel(..., startrow=start_idx+1, header=False)`). -/

/-- One write action against a worksheet: a header row of column names, or a
data row, each at an absolute sheet row index. -/
inductive SheetWrite
  | header (rowIdx : Nat) (cols : List String)
  | row (rowIdx : Nat) (vals : List Val)
deriving DecidableEq, Repr

/-- The batch size of `export_to_excel` (`CHUNK_SIZE = 100000`). -/
def CHUNK_SIZE : Nat := 100000

/-- `range(0, total, b)`: the chunk start indices `0, b, 2b, ...` below
`total` (`⌈total/b⌉` of them). -/
def chunkIndices (total b : Nat) : List Nat :=
  (List.range ((total + b - 1) / b)).map (fun k => k * b)

/-- Write the given data rows at consecutive sheet rows starting at `pos`. -/
def placeRows (pos : Nat) : List (List Val) → List SheetWrite
  | [] => []
  | r :: rs => SheetWrite.row pos r :: placeRows (pos + 1) rs

/-- The write actions the chunk loop performs for one worksheet:
`df.iloc[s : min (s+b) total]` is `(rows.drop s).take b`. -/
def sheetWrites (df : DataFrame) (b : Nat) : List SheetWrite :=
  (chunkIndices df.rows.length b).flatMap (fun s =>
    if s = 0 then
      SheetWrite.header 0 df.cols :: placeRows 1 ((df.rows.drop s).take b)
    else
      placeRows (s + 1) ((df.rows.drop s).take b))

theorem chunkIndices_nil (b : Nat) : chunkIndices 0 b = [] := by
  unfold chunkIndices
  rcases Nat.eq_zero_or_pos b with hb | hb
  · subst hb; rfl
  · rw [Nat.div_eq_of_lt (by omega)]; rfl

theorem numChunks_succ (n b : Nat) (hn : 0 < n) (hb : 0 < b) :
    (n + b - 1) / b = (n - b + b - 1) / b + 1 := by
  rcases le_or_lt n b with h | h
  · have h1 : n - b = 0 := by omega
    have h3 : n + b - 1 = (n - 1) + b := by omega
    rw [h1, h3, Nat.add_div_right _ hb,
      Nat.div_eq_of_lt (show n - 1 < b by omega),
      Nat.div_eq_of_lt (show 0 + b - 1 < b by omega)]
  · have h3 : n + b - 1 = (n - 1) + b := by omega
    have h4 : n - b + b - 1 = (n - b - 1) + b := by omega
    have h5 : n - 1 = (n - b - 1) + b := by omega
    rw [h3, Nat.add_div_right _ hb, h4, Nat.add_div_right _ hb, h5,
      Nat.add_div_right _ hb]

theorem chunkIndices_succ (n b : Nat) (hn : 0 < n) (hb : 0 < b) :
    chunkIndices n b = 0 :: (chunkIndices (n - b) b).map (fun s => s + b) := by
  unfold chunkIndices
  rw [numChunks_succ n b hn hb, List.range_succ_eq_map, List.map_cons,
    List.map_map, List.map_map]
  have hfun : ((fun k => k * b) ∘ fun k => k + 1) = ((fun s => s + b) ∘ fun k => k * b) := by
    funext s
    simp [Function.comp]
    ring
  rw [hfun]
  norm_num

theorem placeRows_append (xs ys : List (List Val)) (pos : Nat) :
    placeRows pos (xs ++ ys) = placeRows pos xs ++ placeRows (pos + xs.length) ys := by
  induction xs generalizing pos with
  | nil => simp [placeRows]
  | cons x xs ih =>
    have h1 : (x :: xs) ++ ys = x :: (xs ++ ys) := rfl
    rw [h1, placeRows, placeRows, ih (pos + 1), List.length_cons, List.cons_append]
    have harith : pos + 1 + xs.length = pos + (xs.length + 1) := by omega
    rw [harith]

/-- Splitting a run of consecutive row writes at `b` changes nothing. -/
theorem placeRows_take_drop (rows : List (List Val)) (b pos : Nat) :
    placeRows pos (rows.take b) ++ placeRows (pos + b) (rows.drop b)
      = placeRows pos rows := by
  rcases le_or_lt b rows.length with h | h
  · conv_rhs => rw [← List.take_append_drop b rows]
    rw [placeRows_append]
    have : (rows.take b).length = b := by rw [List.length_take]; omega
    rw [this]
  · have hdropnil : rows.drop b = [] := List.drop_eq_nil_of_le (by omega)
    have htake : rows.take b = rows := List.take_of_length_le (by omega)
    rw [hdropnil, htake]
    simp [placeRows]

/-- The chunk loop, restricted to its data-row writes, lays the rows out
consecutively from `pos`: chunking is invisible in the written rows. -/
theorem chunked_placeRows (b : Nat) (hb : 0 < b) :
    ∀ (n : Nat) (rows : List (List Val)) (pos : Nat), rows.length = n →
      (chunkIndices n b).flatMap
          (fun s => placeRows (pos + s) ((rows.drop s).take b))
        = placeRows pos rows := by
  intro n
  induction n using Nat.strong_induction_on with
  | _ n ih =>
    intro rows pos hlen
    rcases Nat.eq_zero_or_pos n with hn | hn
    · subst hn
      rw [List.eq_nil_of_length_eq_zero hlen, chunkIndices_nil]
      rfl
    · rw [chunkIndices_succ n b hn hb, List.flatMap_cons, List.flatMap_map]
      have hbody : ∀ s, placeRows (pos + (s + b)) ((rows.drop (s + b)).take b)
          = placeRows (pos + b + s) (((rows.drop b).drop s).take b) := by
        intro s
        have h1 : pos + (s + b) = pos + b + s := by omega
        have h2 : s + b = b + s := Nat.add_comm s b
        rw [h1, h2, ← List.drop_drop]
      simp only [hbody]
      rw [ih (n - b) (by omega) (rows.drop b) (pos + b)
        (by rw [List.length_drop, hlen])]
      rw [List.drop_zero, Nat.add_zero]
      exact placeRows_take_drop rows b pos

/-- **C2 (amended: at least one row).** For every positive batch size and
every non-empty frame, the chunk loop writes exactly one header (at sheet
row 0) and then each input row exactly once, row `i` at sheet row `i + 1`,
with no duplicated, skipped or overlapping rows — chunking is invisible. -/
theorem C2_chunk_loop (df : DataFrame) (b : Nat) (hb : 0 < b)
    (hne : df.rows ≠ []) :
    sheetWrites df b = SheetWrite.header 0 df.cols :: placeRows 1 df.rows := by
  unfold sheetWrites
  have hn : 0 < df.rows.length := List.length_pos.mpr hne
  rw [chunkIndices_succ _ b hn hb]
  simp only [List.flatMap_cons, List.flatMap_map, if_true]
  have hbody : ∀ s,
      (if s + b = 0 then
        SheetWrite.header 0 df.cols :: placeRows 1 ((df.rows.drop (s + b)).take b)
      else placeRows (s + b + 1) ((df.rows.drop (s + b)).take b))
      = placeRows (1 + b + s) (((df.rows.drop b).drop s).take b) := by
    intro s
    rw [if_neg (by omega)]
    have h1 : s + b + 1 = 1 + b + s := by omega
    have h2 : s + b = b + s := Nat.add_comm s b
    rw [h1, h2, ← List.drop_drop]
  simp only [hbody]
  rw [chunked_placeRows b hb (df.rows.length - b) (df.rows.drop b) (1 + b)
    (by rw [List.length_drop])]
  rw [List.drop_zero, List.cons_append]
  congr 1
  exact placeRows_take_drop df.rows b 1

/-- **C2, claim as stated is false at a zero-row frame:** with no rows the
loop body never runs, so not even the header row is written (zero header
writes, not one). -/
theorem C2_counterexample :
    sheetWrites ⟨["a"], []⟩ 1 = []
    ∧ ¬ ((sheetWrites ⟨["a"], []⟩ 1).countP
          (fun w => match w with
            | SheetWrite.header _ _ => true
            | _ => false) = 1) := by
  decide

/-- The three-row frame used to witness the chunk-loop law with batch size 2
(so the loop runs twice: a full chunk, then a partial one). -/
def c2Frame : DataFrame :=
  ⟨["category", "cost"],
   [[Val.str "core", Val.int 1], [Val.str "core", Val.int 2],
    [Val.str "core", Val.int 3]]⟩

/-- Witness for the amended C2 at a concrete frame and batch size. -/
theorem C2_chunk_loop_witness :
    sheetWrites c2Frame 2 = SheetWrite.header 0 c2Frame.cols :: placeRows 1 c2Frame.rows :=
  C2_chunk_loop c2Frame 2 (by decide) (by decide)

/-! ## Aggregation: `pd.concat(dfs, ignore_index=True)` in `main`

With the default `sort=False`, `pd.concat` takes the union of the input
frames' columns in order of first appearance, stacks all rows in input
order, and fills a row's missing columns with NaN. -/

/-- Union of the column lists in order of first appearance. -/
def unionCols (colLists : List (List String)) : List String :=
  colLists.foldl (fun acc cs => acc ++ cs.filter (fun c => !(acc.contains c))) []

/-- The value a row (aligned with `cols`) holds in column `c`; NaN when the
row has no such column. -/
def getCell (cols : List String) (row : List Val) (c : String) : Val :=
  ((cols.zip row).lookup c).getD Val.null

/-- Re-align a row from its own column list to the concatenated column list,
filling the columns it lacks with NaN. -/
def reindexRow (oldCols newCols : List String) (row : List Val) : List Val :=
  newCols.map (getCell oldCols row)

/-- `pd.concat(dfs, ignore_index=True)`. -/
def concatDFs (dfs : List DataFrame) : DataFrame :=
  let cols := unionCols (dfs.map (fun df => df.cols))
  { cols := cols
  , rows := dfs.flatMap (fun df => df.rows.map (reindexRow df.cols cols)) }

/-- Number of concatenated rows contributed by the frames before index `k`. -/
def rowOffset (dfs : List DataFrame) (k : Nat) : Nat :=
  ((dfs.take k).map (fun df => df.rows.length)).sum

theorem mem_unionCols (colLists : List (List String)) (c : String) :
    c ∈ unionCols colLists ↔ ∃ cs ∈ colLists, c ∈ cs := by
  suffices h : ∀ acc, (c ∈ colLists.foldl
      (fun acc cs => acc ++ cs.filter (fun c => !(acc.contains c))) acc
      ↔ c ∈ acc ∨ ∃ cs ∈ colLists, c ∈ cs) by
    have := h []
    simpa [unionCols] using this
  induction colLists with
  | nil => intro acc; simp
  | cons cs rest ih =>
    intro acc
    rw [List.foldl_cons, ih]
    constructor
    · rintro (h | h)
      · rcases List.mem_append.mp h with h | h
        · exact Or.inl h
        · exact Or.inr ⟨cs, by simp, (List.mem_filter.mp h).1⟩
      · rcases h with ⟨ds, hds, hc⟩
        exact Or.inr ⟨ds, by simp [hds], hc⟩
    · rintro (h | ⟨ds, hds, hc⟩)
      · exact Or.inl (List.mem_append.mpr (Or.inl h))
      · rcases List.mem_cons.mp hds with rfl | hds
        · by_cases hacc : c ∈ acc
          · exact Or.inl (List.mem_append.mpr (Or.inl hacc))
          · refine Or.inl (List.mem_append.mpr (Or.inr ?_))
            refine List.mem_filter.mpr ⟨hc, ?_⟩
            simp [hacc]
        · exact Or.inr ⟨ds, hds, hc⟩

theorem lookup_zip_self (cols : List String) (f : String → Val) (c : String) :
    (cols.zip (cols.map f)).lookup c
      = if c ∈ cols then some (f c) else none := by
  induction cols with
  | nil => simp
  | cons d ds ih =>
    have hz : ((d :: ds).zip ((d :: ds).map f)) = (d, f d) :: ds.zip (ds.map f) := rfl
    rw [hz]
    by_cases hcd : c = d
    · subst hcd
      simp [List.lookup]
    · have hbeq : (c == d) = false := by simp [hcd]
      simp only [List.lookup, hbeq]
      rw [ih]
      by_cases hmem : c ∈ ds
      · simp [hmem]
      · simp [hmem, List.mem_cons, hcd]

theorem lookup_zip_not_mem (cols : List String) (row : List Val) (c : String)
    (h : c ∉ cols) : (cols.zip row).lookup c = none := by
  induction cols generalizing row with
  | nil => simp
  | cons d ds ih =>
    cases row with
    | nil => simp
    | cons v vs =>
      have hz : ((d :: ds).zip (v :: vs)) = (d, v) :: ds.zip vs := rfl
      rw [hz]
      have hbeq : (c == d) = false := by
        have hcd : c ≠ d := fun hh => h (List.mem_cons.mpr (Or.inl hh))
        simp [hcd]
      simp only [List.lookup, hbeq]
      exact ih vs (fun hh => h (List.mem_cons.mpr (Or.inr hh)))

/-- A re-aligned row holds, in every column, the value the original row held
there — NaN when the original row's frame lacked the column. -/
theorem getCell_reindexRow (oldCols newCols : List String) (row : List Val)
    (c : String) :
    getCell newCols (reindexRow oldCols newCols row) c
      = if c ∈ newCols then getCell oldCols row c else Val.null := by
  unfold getCell reindexRow
  rw [lookup_zip_self newCols (fun d => getCell oldCols row d) c]
  by_cases h : c ∈ newCols
  · simp [h, getCell]
  · simp [h]

theorem flatMap_getElem?_offset {α β : Type} [Inhabited α]
    (f : α → List β) :
    ∀ (l : List α) (k j : Nat), k < l.length → j < (f (l.getD k default)).length →
      (l.flatMap f)[((l.take k).map (fun a => (f a).length)).sum + j]?
        = (f (l.getD k default))[j]? := by
  intro l
  induction l with
  | nil => intro k j hk _; simp at hk
  | cons a t ih =>
    intro k j hk hj
    cases k with
    | zero =>
      simp only [List.take_zero, List.map_nil, List.sum_nil, Nat.zero_add,
        List.flatMap_cons]
      exact List.getElem?_append_left hj
    | succ k =>
      simp only [List.take_succ_cons, List.map_cons, List.sum_cons,
        List.flatMap_cons]
      rw [List.getElem?_append_right (by omega)]
      have harith : (f a).length + ((t.take k).map (fun a => (f a).length)).sum + j
          - (f a).length = ((t.take k).map (fun a => (f a).length)).sum + j := by
        omega
      rw [harith]
      exact ih k j (by simpa using hk) hj

/-- **C6.** `pd.concat` of the per-view frames of one provider: the column
set of the result is the union of the inputs' column sets; the row count is
the sum of the inputs' row counts; the row at frame `k`'s row offset plus `j`
is frame `k`'s row `j` re-aligned to the union columns (rows appear in view
order, then record order within a view); and a row coming from a frame that
lacks a column holds NaN in that column. -/
theorem C6_concat_union (dfs : List DataFrame) (hne : dfs ≠ []) :
    (∀ c, c ∈ (concatDFs dfs).cols ↔ ∃ df ∈ dfs, c ∈ df.cols)
    ∧ (concatDFs dfs).rows.length = (dfs.map (fun df => df.rows.length)).sum
    ∧ (∀ k j, k < dfs.length → j < (dfs.getD k default).rows.length →
        (concatDFs dfs).rows[rowOffset dfs k + j]?
          = ((dfs.getD k default).rows[j]?).map
              (reindexRow (dfs.getD k default).cols (concatDFs dfs).cols))
    ∧ (∀ df row c, df ∈ dfs → row ∈ df.rows → c ∉ df.cols →
        getCell (concatDFs dfs).cols
          (reindexRow df.cols (concatDFs dfs).cols row) c = Val.null) := by
  refine ⟨?_, ?_, ?_, ?_⟩
  · intro c
    show c ∈ unionCols (dfs.map (fun df => df.cols)) ↔ _
    rw [mem_unionCols]
    constructor
    · rintro ⟨cs, hcs, hc⟩
      rcases List.mem_map.mp hcs with ⟨df, hdf, rfl⟩
      exact ⟨df, hdf, hc⟩
    · rintro ⟨df, hdf, hc⟩
      exact ⟨df.cols, List.mem_map.mpr ⟨df, hdf, rfl⟩, hc⟩
  · show (dfs.flatMap fun df =>
        df.rows.map (reindexRow df.cols (concatDFs dfs).cols)).length
      = (dfs.map (fun df => df.rows.length)).sum
    rw [List.length_flatMap]
    congr 1
    apply List.map_congr_left
    intro df _
    simp
  · intro k j hk hj
    have h := flatMap_getElem?_offset
      (fun df => df.rows.map (reindexRow df.cols (concatDFs dfs).cols)) dfs k j hk
      (by simpa using hj)
    have hoff : ((dfs.take k).map
        (fun df => (df.rows.map (reindexRow df.cols (concatDFs dfs).cols)).length)).sum
        = rowOffset dfs k := by
      simp [rowOffset]
    rw [hoff] at h
    calc (concatDFs dfs).rows[rowOffset dfs k + j]?
        = ((dfs.getD k default).rows.map
            (reindexRow (dfs.getD k default).cols (concatDFs dfs).cols))[j]? := h
      _ = ((dfs.getD k default).rows[j]?).map
            (reindexRow (dfs.getD k default).cols (concatDFs dfs).cols) :=
          List.getElem?_map ..
  · intro df row c _ _ hc
    rw [getCell_reindexRow]
    have hnone : getCell df.cols row c = Val.null := by
      unfold getCell
      rw [lookup_zip_not_mem df.cols row c hc]
      rfl
    by_cases h : c ∈ (concatDFs dfs).cols
    · simp [h, hnone]
    · simp [h]

/-- A one-view frame for the concat witness. -/
def c6FrameA : DataFrame :=
  ⟨["category", "cost"], [[Val.str "core", Val.int 1]]⟩

/-- A second-view frame with a different column set for the concat witness. -/
def c6FrameB : DataFrame :=
  ⟨["category", "region"],
   [[Val.str "product1", Val.str "us"], [Val.str "product1", Val.str "eu"]]⟩

/-- Witness for C6 at two concrete frames with different column sets. -/
theorem C6_concat_union_witness :
    ("region" ∈ (concatDFs [c6FrameA, c6FrameB]).cols
      ↔ ∃ df ∈ [c6FrameA, c6FrameB], "region" ∈ df.cols)
    ∧ (concatDFs [c6FrameA, c6FrameB]).rows.length
        = ([c6FrameA, c6FrameB].map (fun df => df.rows.length)).sum
    ∧ (concatDFs [c6FrameA, c6FrameB]).rows[rowOffset [c6FrameA, c6FrameB] 1 + 0]?
        = ((([c6FrameA, c6FrameB].getD 1 default).rows[0]?).map
            (reindexRow ([c6FrameA, c6FrameB].getD 1 default).cols
              (concatDFs [c6FrameA, c6FrameB]).cols))
    ∧ getCell (concatDFs [c6FrameA, c6FrameB]).cols
        (reindexRow c6FrameA.cols (concatDFs [c6FrameA, c6FrameB]).cols
          [Val.str "core", Val.int 1]) "region" = Val.null :=
  ⟨(C6_concat_union [c6FrameA, c6FrameB] (by simp)).1 "region",
   (C6_concat_union [c6FrameA, c6FrameB] (by simp)).2.1,
   (C6_concat_union [c6FrameA, c6FrameB] (by simp)).2.2.1 1 0 (by decide) (by decide),
   (C6_concat_union [c6FrameA, c6FrameB] (by simp)).2.2.2 c6FrameA
     [Val.str "core", Val.int 1] "region" (by simp) (by decide) (by decide)⟩

/-! ## `get_report`

The HTTP layer is a parameter: `http = none` models a
`requests.exceptions.RequestException` (connection failure, timeout, or an
error status surfaced by `raise_for_status`), `http = some resp` the parsed
JSON body of a successful request.  The second component of the result
counts how many Report Source calls were made (0 or 1). -/

/-- One view's configuration (`{dimensions, metrics}`). -/
structure ViewConfig where
  dimensions : List String
  metrics : List String
deriving DecidableEq, Repr, Inhabited

/-- `views_config`: provider name → view name → view configuration, an
ordered mapping loaded from the views JSON file. -/
abbrev ViewsConfig := List (String × List (String × ViewConfig))

/-- `CloudabilityReporter.get_report`: reject an unknown provider
(`cloud_provider not in self.views_config`), then an unknown view name,
without calling the API; otherwise perform exactly one request and return
its parsed body (`some resp`), or `none` when the request raises a
`RequestException` (caught and turned into `None`). -/
def get_report (viewsConfig : ViewsConfig) (http : Option Response)
    (cloudProvider viewName : String) : Option Response × Nat :=
  if viewsConfig.lookup cloudProvider = none then (none, 0)
  else if ((viewsConfig.lookup cloudProvider).getD []).lookup viewName = none then
    (none, 0)
  else (http, 1)

/-- **C7.** `get_report` returns `None` exactly when the provider is
unknown, the view name is unknown for that provider, or the HTTP request
fails; in the first two cases no Report Source call is made (call count 0);
when both lookups succeed it performs exactly one call and returns the
parsed response body when that call succeeds. -/
theorem C7_get_report_cases (cfg : ViewsConfig) (http : Option Response)
    (provider viewName : String) :
    ((get_report cfg http provider viewName).1 = none ↔
      (cfg.lookup provider = none
        ∨ (∃ views, cfg.lookup provider = some views
            ∧ views.lookup viewName = none)
        ∨ http = none))
    ∧ (cfg.lookup provider = none →
        get_report cfg http provider viewName = (none, 0))
    ∧ (∀ views, cfg.lookup provider = some views → views.lookup viewName = none →
        get_report cfg http provider viewName = (none, 0))
    ∧ (∀ views vc, cfg.lookup provider = some views →
        views.lookup viewName = some vc →
        get_report cfg http provider viewName = (http, 1)) := by
  unfold get_report
  by_cases h1 : cfg.lookup provider = none
  · rw [if_pos h1]
    refine ⟨⟨fun _ => Or.inl h1, fun _ => rfl⟩, fun _ => rfl, ?_, ?_⟩
    · intro views hv _
      rw [h1] at hv
    · intro views vc hv _
      rw [h1] at hv
      exact absurd hv (by simp)
  · rw [if_neg h1]
    obtain ⟨views, hv⟩ : ∃ v, cfg.lookup provider = some v := by
      rcases hx : cfg.lookup provider with _ | v
      · exact absurd hx h1
      · exact ⟨v, rfl⟩
    have hgetD : (cfg.lookup provider).getD [] = views := by rw [hv]; rfl
    by_cases h2 : ((cfg.lookup provider).getD []).lookup viewName = none
    · rw [if_pos h2]
      rw [hgetD] at h2
      refine ⟨⟨fun _ => Or.inr (Or.inl ⟨views, hv, h2⟩), fun _ => rfl⟩, ?_,
        fun _ _ _ => rfl, ?_⟩
      · intro hnone
        rw [hnone] at hv
      · intro views2 vc hv2 hl2
        rw [hv] at hv2
        injection hv2 with heq
        subst heq
        rw [h2] at hl2
        exact absurd hl2 (by simp)
    · rw [if_neg h2]
      rw [hgetD] at h2
      obtain ⟨vc, hvc⟩ : ∃ c, views.lookup viewName = some c := by
        rcases hx : views.lookup viewName with _ | c
        · exact absurd hx h2
        · exact ⟨c, rfl⟩
      refine ⟨⟨fun h => Or.inr (Or.inr h), ?_⟩, fun h => absurd h h1, ?_,
        fun _ _ _ _ => rfl⟩
      · rintro (h | ⟨views2, hv2, hl2⟩ | h)
        · exact absurd h h1
        · rw [hv] at hv2
          injection hv2 with heq
          subst heq
          rw [hvc] at hl2
          exact absurd hl2 (by simp)
        · exact h
      · intro views2 hv2 hl2
        rw [hv] at hv2
        injection hv2 with heq
        subst heq
        rw [hvc] at hl2
        exact absurd hl2 (by simp)

/-- The views configuration used by the C7 witness. -/
def c7Config : ViewsConfig :=
  [("AWS", [("aws_view1", ⟨["service", "resource", "tags"], ["cost"]⟩)])]

/-- The successful response used by the C7 witness. -/
def c7Resp : Response := ⟨[("data", [[("service", Val.str "EC2")]])]⟩

/-- Witness for C7: a known provider/view returns the body with one call; an
unknown provider (the spec's `"GCP"` scenario) returns `None` with zero
calls. -/
theorem C7_get_report_cases_witness :
    get_report c7Config (some c7Resp) "AWS" "aws_view1" = (some c7Resp, 1)
    ∧ get_report c7Config (some c7Resp) "GCP" "aws_view1" = (none, 0) :=
  ⟨(C7_get_report_cases c7Config (some c7Resp) "AWS" "aws_view1").2.2.2
      [("aws_view1", ⟨["service", "resource", "tags"], ["cost"]⟩)]
      ⟨["service", "resource", "tags"], ["cost"]⟩ (by decide) (by decide),
   (C7_get_report_cases c7Config (some c7Resp) "GCP" "aws_view1").2.1 (by decide)⟩

/-! ## Failure behaviour of `export_to_excel`

The whole body runs inside one `try`; the `except` handler turns any raised
exception into the return value `False`, and `True` is returned only after
every provider's worksheet and formatting completed.  Exceptions raised by
the spreadsheet library are modelled by injecting an optional fault per
provider sheet: at a given chunk write (the first chunk also writes and
styles the header), or during the column-width formatting.  One failure
mode is intrinsic and needs no injection: `writer.sheets[sheet_name]`
raises `KeyError` when the chunk loop ran zero times, because only
`to_excel` creates the sheet. -/

/-- A failure injected into one worksheet's writing. -/
inductive Fault
  | chunk (i : Nat)
  | format
deriving DecidableEq, Repr

/-- An exception reaching the `except` handler of `export_to_excel`. -/
inductive ExportError
  | ioError
  | keyError
deriving DecidableEq, Repr

instance {e a : Type} [DecidableEq e] [DecidableEq a] : DecidableEq (Except e a) := fun x y =>
  match x, y with
  | Except.ok u, Except.ok v =>
    if h : u = v then isTrue (by rw [h]) else isFalse (fun hh => h (Except.ok.inj hh))
  | Except.error u, Except.error v =>
    if h : u = v then isTrue (by rw [h]) else isFalse (fun hh => h (Except.error.inj hh))
  | Except.ok _, Except.error _ => isFalse (fun hh => Except.noConfusion hh)
  | Except.error _, Except.ok _ => isFalse (fun hh => Except.noConfusion hh)

/-- The chunk loop for one worksheet with fault injection: iteration `i`
raises when the injected fault is `chunk i`. -/
def chunkLoopE (nChunks : Nat) (fault : Option Fault) : Except ExportError Unit :=
  (List.range nChunks).foldlM
    (fun _ i =>
      if fault = some (Fault.chunk i) then Except.error ExportError.ioError
      else Except.ok ()) ()

/-- Writing one provider's worksheet: the chunk loop, then
`worksheet = writer.sheets[sheet_name]` (a `KeyError` when no chunk created
the sheet), then the column-width formatting. -/
def writeSheet (df : DataFrame) (b : Nat) (fault : Option Fault) :
    Except ExportError Unit := do
  let nChunks := (chunkIndices df.rows.length b).length
  chunkLoopE nChunks fault
  if nChunks = 0 then
    throw ExportError.keyError
  else if fault = some Fault.format then
    throw ExportError.ioError
  else
    pure ()

/-- `CloudabilityReporter.export_to_excel`: write every provider's sheet in
order; the first exception aborts the rest and the handler returns `False`;
`True` only when everything was written. -/
def export_to_excel (cloudData : List (String × DataFrame)) (b : Nat)
    (faults : String → Option Fault) : Bool :=
  match cloudData.foldlM (fun _ e => writeSheet e.2 b (faults e.1)) () with
  | Except.ok _ => true
  | Except.error _ => false

/-- The provider loop succeeds as a whole exactly when every provider's
sheet write succeeds. -/
theorem exportLoop_ok (b : Nat) (faults : String → Option Fault) :
    ∀ (l : List (String × DataFrame)),
      (l.foldlM (fun _ e => writeSheet e.2 b (faults e.1)) ()
          = Except.ok ())
        ↔ ∀ e ∈ l, writeSheet e.2 b (faults e.1) = Except.ok () := by
  intro l
  induction l with
  | nil => exact ⟨fun _ e he => absurd he (by simp), fun _ => rfl⟩
  | cons a t ih =>
    rw [List.foldlM_cons]
    rcases hw : writeSheet a.2 b (faults a.1) with err | u
    · constructor
      · intro h
        rw [show ((Except.error err : Except ExportError Unit) >>= fun b_1 =>
            t.foldlM (fun _ e => writeSheet e.2 b (faults e.1)) b_1)
            = Except.error err from rfl] at h
        exact absurd h (by simp)
      · intro h
        have := h a (by simp)
        rw [this] at hw
        exact absurd hw (by simp)
    · cases u
      rw [show ((Except.ok () : Except ExportError Unit) >>= fun b_1 =>
          t.foldlM (fun _ e => writeSheet e.2 b (faults e.1)) b_1)
          = t.foldlM (fun _ e => writeSheet e.2 b (faults e.1)) () from rfl]
      rw [ih]
      constructor
      · intro h e he
        rcases List.mem_cons.mp he with rfl | he
        · exact hw
        · exact h e he
      · intro h e he
        exact h e (List.mem_cons.mpr (Or.inr he))

/-- **C8.** `export_to_excel` returns `True` exactly when every provider's
worksheet write (chunk writes, header, and formatting) succeeded; any
failure for any provider makes the whole export return `False` — there is
no partial-success result. -/
theorem C8_export_all_or_nothing (cloudData : List (String × DataFrame))
    (b : Nat) (faults : String → Option Fault) :
    export_to_excel cloudData b faults = true
      ↔ ∀ e ∈ cloudData, writeSheet e.2 b (faults e.1) = Except.ok () := by
  unfold export_to_excel
  rcases hres : cloudData.foldlM (fun _ e => writeSheet e.2 b (faults e.1)) ()
    with err | u
  · rw [hres]
    constructor
    · intro h
      exact absurd h (by simp)
    · intro h
      have h2 := (exportLoop_ok b faults cloudData).mpr h
      rw [h2] at hres
      exact absurd hres (by simp)
  · cases u
    rw [hres]
    exact ⟨fun _ => (exportLoop_ok b faults cloudData).mp hres, fun _ => rfl⟩

/-- Witness for C8: an export with no faults returns `True`; the same data
with a formatting fault on the only sheet returns `False`. -/
theorem C8_export_all_or_nothing_witness :
    export_to_excel [("AWS", ⟨["category"], [[Val.str "core"]]⟩)] CHUNK_SIZE
        (fun _ => none) = true
    ∧ ¬ (export_to_excel [("AWS", ⟨["category"], [[Val.str "core"]]⟩)] CHUNK_SIZE
        (fun _ => some Fault.format) = true) :=
  ⟨(C8_export_all_or_nothing _ CHUNK_SIZE (fun _ => none)).mpr (by decide),
   fun h => by
    have := (C8_export_all_or_nothing _ CHUNK_SIZE (fun _ => some Fault.format)).mp h
      ("AWS", ⟨["category"], [[Val.str "core"]]⟩) (by simp)
    exact absurd this (by decide)⟩

/-- **C10.** A provider mapped to a zero-row frame makes the chunk loop run
zero iterations, so its sheet is never created; the width-formatting step's
`writer.sheets[sheet_name]` lookup then raises `KeyError`, and the whole
export returns `False`. -/
theorem C10_zero_row_frame_fails (cloudData : List (String × DataFrame))
    (b : Nat) (faults : String → Option Fault) (p : String) (df : DataFrame)
    (hmem : (p, df) ∈ cloudData) (hempty : df.rows = []) :
    writeSheet df b (faults p) = Except.error ExportError.keyError
    ∧ export_to_excel cloudData b faults = false := by
  have h1 : writeSheet df b (faults p) = Except.error ExportError.keyError := by
    have hlen : df.rows.length = 0 := by rw [hempty]; rfl
    unfold writeSheet
    rw [hlen, chunkIndices_nil]
    rfl
  refine ⟨h1, ?_⟩
  unfold export_to_excel
  rcases hres : cloudData.foldlM (fun _ e => writeSheet e.2 b (faults e.1)) ()
    with err | u
  · rw [hres]
  · exfalso
    cases u
    have := (exportLoop_ok b faults cloudData).mp hres (p, df) hmem
    rw [h1] at this
    exact absurd this (by simp)

/-- Witness for C10: one provider with a zero-row frame, batch size
`CHUNK_SIZE`, no injected faults. -/
theorem C10_zero_row_frame_fails_witness :
    writeSheet (⟨["category"], []⟩ : DataFrame) CHUNK_SIZE none
      = Except.error ExportError.keyError
    ∧ export_to_excel [("AWS", ⟨["category"], []⟩)] CHUNK_SIZE (fun _ => none)
      = false :=
  C10_zero_row_frame_fails [("AWS", ⟨["category"], []⟩)] CHUNK_SIZE
    (fun _ => none) "AWS" ⟨["category"], []⟩ (by simp) rfl

/-! ## The aggregation loop of `main`

For each provider in the fixed list `['AWS', 'Azure']`, `main` iterates the
provider's configured views, keeps a frame only when the fetched response is
truthy (`if data:` — a Python dict is truthy when non-empty) and
`process_data` did not return `None`, concatenates the kept frames, and
stores them under the provider only when at least one was kept
(`if dfs:`); the export runs only when the final dict is truthy
(`if cloud_data:`). -/

/-- Truthiness of the response dict (`if data:`). -/
def Response.truthy (r : Response) : Bool := !r.fields.isEmpty

/-- The per-view body of the provider loop in `main`: fetch, keep only a
truthy response, process, keep only a non-`None` frame. -/
def viewResult (cfg : ViewsConfig) (http : String → String → Option Response)
    (provider viewName : String) : Option DataFrame :=
  match (get_report cfg (http provider viewName) provider viewName).1 with
  | none => none
  | some resp => if resp.truthy then process_data resp viewName else none

/-- The view names configured for a provider
(`reporter.views_config[provider].keys()`). -/
def viewNames (cfg : ViewsConfig) (provider : String) : List String :=
  ((cfg.lookup provider).getD []).map Prod.fst

/-- The `cloud_data` dict built by `main`: one entry per provider whose view
loop kept at least one frame, holding their concatenation. -/
def mainCloudData (providers : List String) (cfg : ViewsConfig)
    (http : String → String → Option Response) : List (String × DataFrame) :=
  providers.filterMap (fun p =>
    let dfs := (viewNames cfg p).filterMap (viewResult cfg http p)
    if dfs.isEmpty then none else some (p, concatDFs dfs))

/-- `if cloud_data:` — the export call (and hence the output file) happens
only when the dict is non-empty. -/
def exportHappens (providers : List String) (cfg : ViewsConfig)
    (http : String → String → Option Response) : Bool :=
  !(mainCloudData providers cfg http).isEmpty

/-- **C9.** A provider none of whose views yields a successfully fetched,
truthy and processed result contributes no entry to `cloud_data`; when
every view of every provider fails, `cloud_data` is empty and no export
call is made at all. -/
theorem C9_all_failed_no_export (providers : List String) (cfg : ViewsConfig)
    (http : String → String → Option Response) :
    (∀ p, (∀ v ∈ viewNames cfg p, viewResult cfg http p v = none) →
        ∀ df, (p, df) ∉ mainCloudData providers cfg http)
    ∧ ((∀ p ∈ providers, ∀ v ∈ viewNames cfg p, viewResult cfg http p v = none) →
        mainCloudData providers cfg http = []
        ∧ exportHappens providers cfg http = false) := by
  constructor
  · intro p hall df hmem
    unfold mainCloudData at hmem
    rcases List.mem_filterMap.mp hmem with ⟨a, _, hfa⟩
    have hnil : (viewNames cfg a).filterMap (viewResult cfg http a) = []
        ∨ ¬ a = p := by
      by_cases hap : a = p
      · subst hap
        exact Or.inl (List.filterMap_eq_nil_iff.mpr hall)
      · exact Or.inr hap
    rcases hnil with hnil | hap
    · rw [hnil] at hfa
      exact absurd hfa (by simp)
    · by_cases hemp : ((viewNames cfg a).filterMap (viewResult cfg http a)).isEmpty
      · rw [if_pos hemp] at hfa
        exact absurd hfa (by simp)
      · rw [if_neg hemp] at hfa
        injection hfa with hpair
        exact hap (congrArg Prod.fst hpair)
  · intro hall
    have hnil : mainCloudData providers cfg http = [] := by
      unfold mainCloudData
      rw [List.filterMap_eq_nil_iff]
      intro p hp
      have := List.filterMap_eq_nil_iff.mpr (hall p hp)
      rw [this]
      rfl
    refine ⟨hnil, ?_⟩
    unfold exportHappens
    rw [hnil]
    rfl

/-- The views configuration used by the C9 witness. -/
def c9Config : ViewsConfig :=
  [("AWS", [("aws_view1", ⟨["service", "resource", "tags"], ["cost"]⟩)]),
   ("Azure", [("azure_view1", ⟨["service", "resource"], ["cost"]⟩)])]

/-- Witness for C9: with every HTTP call failing, `cloud_data` stays empty
and the export never runs. -/
theorem C9_all_failed_no_export_witness :
    mainCloudData ["AWS", "Azure"] c9Config (fun _ _ => none) = []
    ∧ exportHappens ["AWS", "Azure"] c9Config (fun _ _ => none) = false :=
  (C9_all_failed_no_export ["AWS", "Azure"] c9Config (fun _ _ => none)).2
    (by decide)
